import Mathlib

/-!
Verification of the statistical scripts of the angiogenesis repository.

The development shallowly embeds the pure computational kernels of the
Python scripts:

* `pysrc/combine_data.py` — the `Group` record, the pooled-statistics
  combination `combine_groups`, and the row-processing loop of the
  `__main__` block (`process_rows`), which folds six sample groups per
  CSV row and stops at the first row whose `days` index exceeds 34.
* `pysrc/fit-rat-vessels.py` — the candidate distribution list
  `dist_names` and the selection logic of `get_best_distribution`.
  The library calls `dist.fit` and `st.kstest` are external (scipy), so
  they enter the embedding as abstract function parameters; the p-values
  they report are modelled as rationals, which carry the decidable linear
  order that Python's `max` relies on.  `pymax` embeds CPython's
  `max(list, key=lambda item: item[1])`: it scans left to right and
  replaces the current best only on a strictly larger key, so the first
  maximum wins.
* `pysrc/lfunction.py` / `pysrc/helper_functions_plot.py` — the linear
  ramp helper `l` (both files contain the identical definition).
* `pysrc/translate_metadata.py` — the translation table, the metadata
  parsing and translation pipeline, and `main`, with the filesystem
  modelled explicitly as a map from names to optional contents and
  `json.loads` as an abstract parameter (it is Python library code).
  Uncaught exceptions are modelled as `Except.error`; the printed
  messages are collected in a list.

Machine reals (Python floats) are modelled as `ℝ`; counts are `ℕ` and
are cast into `ℝ` exactly where the Python code mixes them into float
arithmetic; `np.sqrt` of a negative argument (a NaN in Python) is
`Real.sqrt`, which is zero there — in both models the pooled-variance
identity fails at such inputs, which is what the counterexamples below
exhibit.
-/

namespace Angio

/-- Record of a sample group from `combine_data.py`: a count `n`, a
sample mean and a sample standard deviation. -/
structure Group where
  n : ℕ
  mean : ℝ
  std : ℝ

/-- Embedding of `combine_groups` from `combine_data.py`: pooled mean is
the count-weighted average, pooled variance is the StackExchange formula
kept in the code (the between-group term appears there expanded as
`m1² + m2² - 2·m1·m2`). -/
noncomputable def combine_groups (group1 group2 : Group) : Group :=
  let new_mean : ℝ :=
    ((group1.n : ℝ) * group1.mean + (group2.n : ℝ) * group2.mean) /
      ((group1.n : ℝ) + (group2.n : ℝ))
  let new_std : ℝ :=
    Real.sqrt
      ((((group1.n : ℝ) - 1) * group1.std ^ 2
          + ((group2.n : ℝ) - 1) * group2.std ^ 2
          + ((group1.n : ℝ) * (group2.n : ℝ))
            * (group1.mean ^ 2 + group2.mean ^ 2
                - 2 * group1.mean * group2.mean)
            / ((group1.n : ℝ) + (group2.n : ℝ)))
        / ((group1.n : ℝ) + (group2.n : ℝ) - 1))
  let new_n : ℕ := group1.n + group2.n
  Group.mk new_n new_mean new_std

/-- One data row of `data/growth_data.csv` as read by the `__main__`
block of `combine_data.py`: six per-group means and standard
deviations. -/
structure GrowthRow where
  mean_1 : ℝ
  mean_2 : ℝ
  mean_3 : ℝ
  mean_4 : ℝ
  mean_5 : ℝ
  mean_6 : ℝ
  std_1 : ℝ
  std_2 : ℝ
  std_3 : ℝ
  std_4 : ℝ
  std_5 : ℝ
  std_6 : ℝ

/-- Per-row body of the `__main__` loop of `combine_data.py`: build the
six groups with the fixed counts 7, 8, 7, 7, 6, 7 and fold them with
`combine_groups` in the order written in the script. -/
noncomputable def combine_row (row : GrowthRow) : Group :=
  let group1 := Group.mk 7 row.mean_1 row.std_1
  let group2 := Group.mk 8 row.mean_2 row.std_2
  let group3 := Group.mk 7 row.mean_3 row.std_3
  let group4 := Group.mk 7 row.mean_4 row.std_4
  let group5 := Group.mk 6 row.mean_5 row.std_5
  let group6 := Group.mk 7 row.mean_6 row.std_6
  combine_groups
    (combine_groups
      (combine_groups (combine_groups (combine_groups group1 group2) group3)
        group4)
      group5)
    group6

/-- Embedding of the row iteration of `combine_data.py.__main__`: rows
are processed in order and the loop `break`s at the first row whose
`days` index `i` satisfies `i > 34`; every surviving row contributes the
pair `(days, combined group)` to the output. -/
noncomputable def process_rows : List (ℤ × GrowthRow) → List (ℤ × Group)
  | [] => []
  | (i, row) :: rest =>
      if 34 < i then [] else (i, combine_row row) :: process_rows rest

/-- Embedding of the helper `l` of `lfunction.py` (the identical
function also appears in `helper_functions_plot.py`): the inner slope is
clamped with `np.maximum(tmp, 0)` before the exponential ramp. -/
noncomputable def l (x c xxx dt : ℝ) : ℝ :=
  let tmp : ℝ := (x - xxx) / (1 - xxx)
  let tmp : ℝ := max tmp 0
  1 - Real.exp (-c * tmp * dt)

/-- The candidate distribution list `dist_names` of
`fit-rat-vessels.py`, in source order (the entry `kstwo` is commented
out in the source and hence absent). -/
def dist_names : List String := [
  "alpha", "anglit", "arcsine", "argus", "beta", "betaprime",
  "bradford", "burr", "burr12", "cauchy", "chi", "chi2",
  "cosine", "crystalball", "dgamma", "dweibull", "expon", "exponnorm",
  "exponweib", "exponpow", "f", "fatiguelife", "fisk", "foldcauchy",
  "foldnorm", "genlogistic", "gennorm", "genpareto", "genexpon", "genextreme",
  "gausshyper", "gamma", "gengamma", "genhalflogistic", "genhyperbolic", "geninvgauss",
  "gompertz", "gumbel_r", "gumbel_l", "halfcauchy", "halflogistic", "halfnorm",
  "halfgennorm", "hypsecant", "invgamma", "invgauss", "invweibull", "johnsonsb",
  "johnsonsu", "kappa4", "kappa3", "kstwobign", "laplace", "laplace_asymmetric",
  "levy", "levy_l", "logistic", "loggamma", "loglaplace", "lognorm",
  "loguniform", "lomax", "maxwell", "mielke", "moyal", "nakagami",
  "ncx2", "ncf", "nct", "norm", "norminvgauss", "pareto",
  "pearson3", "powerlaw", "powerlognorm", "powernorm", "rdist", "rayleigh",
  "rice", "recipinvgauss", "semicircular", "skewcauchy", "skewnorm", "t",
  "trapezoid", "triang", "truncexpon", "truncnorm", "tukeylambda", "uniform",
  "vonmises", "vonmises_line", "wald", "weibull_min", "weibull_max", "wrapcauchy"]

/-- Embedding of CPython's `max(x :: xs, key=lambda item: item[1])`:
fold from the left, replacing the current best only when the candidate's
key is strictly larger, so on ties the earliest element is kept. -/
def pymax {α : Type} (x : α × ℚ) (xs : List (α × ℚ)) : α × ℚ :=
  xs.foldl (fun best item => if best.2 < item.2 then item else best) x

/-- The `dist_results` list built by the loop of
`get_best_distribution`: for each candidate name, the pair of the name
and the p-value of the Kolmogorov–Smirnov test run against the fitted
parameters.  `fit` and `kstest` abstract the scipy calls `dist.fit(data)`
and `st.kstest(data, dist_name, args=param)` for the fixed data sample;
`kstest` returns the pair `(D, p)` and the loop keeps `p`. -/
def fit_results {P : Type} (names : List String) (fit : String → P)
    (kstest : String → P → ℚ × ℚ) : List (String × ℚ) :=
  names.map (fun dist_name => (dist_name, (kstest dist_name (fit dist_name)).2))

/-- Selection core of `get_best_distribution`, generalised over the name
list: Python's `max(dist_results, key=lambda item: item[1])` followed by
the lookup `params[best_dist]` (each name's parameters were stored once,
so the lookup returns `fit` of the winning name).  An empty list makes
Python's `max` raise, embedded as `none`. -/
def best_of {P : Type} (names : List String) (fit : String → P)
    (kstest : String → P → ℚ × ℚ) : Option (String × ℚ × P) :=
  match fit_results names fit kstest with
  | [] => none
  | x :: xs =>
      let best := pymax x xs
      some (best.1, best.2, fit best.1)

/-- Embedding of `get_best_distribution` of `fit-rat-vessels.py`: run
the selection over the fixed candidate list `dist_names`. -/
def get_best_distribution {P : Type} (fit : String → P)
    (kstest : String → P → ℚ × ℚ) : Option (String × ℚ × P) :=
  best_of dist_names fit kstest

/-- The filesystem visible to `translate_metadata.py`, as a map from
file names to optional contents. -/
structure FileSystem where
  files : String → Option String

/-- The `translation_table` dictionary of `translate_metadata.py`,
mapping metadata keys to the paper's LaTeX notation, in source order. -/
def translation_table : List (String × String) := [
  ("action_radius_factor", "r_a"),
  ("adhesion_scale_parameter", "c_a"),
  ("alpha_H_D_DOX", "not used"),
  ("alpha_H_D_TRA", "not used"),
  ("alpha_Q_D_N", "a_\x7bQ \\rightarrow D\x7d"),
  ("alpha_Q_SG2_N", "c_\x7bQ \\rightarrow SG2\x7d"),
  ("alpha_Q_SG2_TRA", "\\lambda_\x7bQ \\rightarrow SG2\x7d"),
  ("alpha_SG2_D_DOX", "c_\x7bSG2 \\rightarrow D\x7d"),
  ("alpha_SG2_SG2_DOX", "c_\x7bSG2 \\rightarrow SG2\x7d"),
  ("apical_growth_gradient_weight", "w_1"),
  ("apical_growth_old_weight", "w_2"),
  ("apical_growth_random_weight", "w_3"),
  ("apical_growth_speed", "not used"),
  ("base_rate_H_D", "r_\x7bH \\rightarrow D\x7d"),
  ("cell_nuclear_radius", "r_n"),
  ("cell_radius", "r_p"),
  ("cell_radius_sigma", "\\sigma_\x7br_p\x7d"),
  ("decay_rate_dox", "\\lambda_\x7bd\x7d"),
  ("decay_rate_nutrients", "\\lambda_\x7bn\x7d"),
  ("decay_rate_tra", "\\lambda_\x7bt\x7d"),
  ("decay_rate_vegf", "\\lambda_\x7bv\x7d"),
  ("default_vessel_length", "not used"),
  ("diffusion_dox", "D_\x7bd\x7d"),
  ("diffusion_nutrients", "D_\x7bn\x7d"),
  ("diffusion_resolution_dox", "(l/h_\x7bd\x7d)"),
  ("diffusion_resolution_nutrients", "(l/h_\x7bn\x7d)"),
  ("diffusion_resolution_tra", "(l/h_\x7bt\x7d)"),
  ("diffusion_resolution_vegf", "(l/h_\x7bv\x7d)"),
  ("diffusion_tra", "D_\x7bt\x7d"),
  ("diffusion_vegf", "D_\x7bv\x7d"),
  ("dox_consumption_rate_tcell", "\\alpha_\x7bd\x7d"),
  ("dox_supply_rate_vessel", "\\beta_\x7bd\x7d"),
  ("duration_apoptosis", "not used"),
  ("duration_cell_cycle", "T_\x7bSG2\x7d"),
  ("duration_growth_phase", "T_\x7bG1\x7d"),
  ("gamma_H_D_DOX", "not used"),
  ("gamma_H_D_TRA", "not used"),
  ("gamma_Q_D_N", "gamma\\_Q\\_D\\_N (not present in paper)"),
  ("gamma_SG2_D_DOX", "gamma\\_SG2\\_D\\_DOX (not present in paper)"),
  ("gamma_SG2_SG2_DOX", "gamma\\_SG2\\_SG2\\_DOX (not present in paper)"),
  ("hypoxic_threshold", "u_n^H"),
  ("initial_concentration_dox", "u_n(t=0)"),
  ("initial_concentration_nutrients", "u_n(t=0)"),
  ("initial_concentration_tra", "u_t(t=0)"),
  ("initial_concentration_vegf", "u_v(t=0)"),
  ("k_H_D_DOX", "not used"),
  ("k_H_D_TRA", "not used"),
  ("k_Q_D_N", "k_\x7bQ \\rightarrow D\x7d"),
  ("k_SG2_D_DOX", "not used"),
  ("k_SG2_SG2_DOX", "not used"),
  ("max_speed", "not used"),
  ("min_dist_to_bifurcation", "d_\x7bbranch\x7d"),
  ("min_dist_to_tip_cell", "d_\x7btip\x7d"),
  ("nutrient_consumption_rate_tcell", "\\alpha_\x7bn\x7d"),
  ("nutrient_supply_rate_vessel", "\\beta_\x7bn\x7d"),
  ("repulsive_scale_parameter", "c_r"),
  ("secretion_rate_vegf", "not used"),
  ("sprouting_probability", "p_\x7bs,rate\x7d"),
  ("threshold_H_D_DOX", "u_d^\x7bH \\rightarrow D\x7d"),
  ("threshold_H_D_TRA", "u_t^\x7bH \\rightarrow D\x7d"),
  ("threshold_Q_D_N", "u_n^\x7bQ \\rightarrow D\x7d"),
  ("threshold_Q_SG2_N", "u_n^\x7bQ \\rightarrow SG2\x7d"),
  ("threshold_SG2_D_DOX", "u_d^\x7bSG2 \\rightarrow D\x7d"),
  ("threshold_SG2_SG2_DOX", "u_d^\x7bSG2 \\rightarrow SG2\x7d"),
  ("total_sim_time", "T"),
  ("tra_consumption_rate_tcell", "\\alpha_\x7bt\x7d"),
  ("tra_supply_rate_vessel", "\\beta_\x7bt\x7d"),
  ("uptake_rate_glucose", "not used"),
  ("vegf_consumption_rate_vessel", "\\beta_\x7bv\x7d"),
  ("vegf_grad_threshold_apical_growth", "\\nabla u_v^\x7bthres\x7d"),
  ("vegf_supply_rate_tcell", "\\alpha_\x7bv\x7d"),
  ("vegf_threshold_sprouting", "u_v^\x7bthres\x7d"),
  ("viscosity", "\\eta (not present in paper)")]

/-- Dictionary lookup `translation_table[key]` (with the membership test
`key in translation_table`) as an association-list search. -/
def lookup_translation (key : String) : Option String :=
  (translation_table.find? (fun kv => kv.1 == key)).map Prod.snd

/-- Embedding of `translate_dictionary`: keep the entries whose key is
in the table and whose translation is not the sentinel `"not used"`,
renaming the key to its translation. -/
def translate_dictionary (parameters : List (String × String)) :
    List (String × String) :=
  parameters.filterMap (fun kv =>
    match lookup_translation kv.1 with
    | none => none
    | some t => if t = "not used" then none else some (t, kv.2))

/-- Python's `s.find(ch)` on strings: index of the first occurrence, or
`-1` when absent. -/
def str_find (s : String) (ch : Char) : ℤ :=
  match s.toList.indexOf? ch with
  | some i => (i : ℤ)
  | none => -1

/-- Python's `s.rfind(ch)` on strings: index of the last occurrence, or
`-1` when absent. -/
def str_rfind (s : String) (ch : Char) : ℤ :=
  match s.toList.reverse.indexOf? ch with
  | some i => (s.length : ℤ) - 1 - i
  | none => -1

/-- Python's slice `s[a:b]` (negative indices count from the end, and
the bounds are clipped into range). -/
def py_slice (s : String) (a b : ℤ) : String :=
  let n : ℤ := (s.length : ℤ)
  let a' : ℤ := if a < 0 then max (n + a) 0 else min a n
  let b' : ℤ := if b < 0 then max (n + b) 0 else min b n
  String.mk ((s.toList.drop a'.toNat).take (b' - a').toNat)

/-- Embedding of `parse_metadata` of `translate_metadata.py`: take the
substring from the first `\x7b` to the last `\x7d`, hand it to
`json.loads` (abstract parameter `jsonLoads`, returning the decoded
document as an association list of sections, or `none` on a decode
error), and index the result with the filter key (`none` for a missing
key models the `KeyError`). -/
def parse_metadata
    (jsonLoads : String → Option (List (String × List (String × String))))
    (content : String) (filterKey : String) :
    Option (List (String × String)) :=
  let start : ℤ := str_find content '{'
  let stop : ℤ := str_rfind content '}'
  let metadata : String := py_slice content start (stop + 1)
  match jsonLoads metadata with
  | none => none
  | some doc => (doc.find? (fun kv => kv.1 == filterKey)).map Prod.snd

/-- The text produced by the write loop of `write_dictionary_to_file`:
one line `$key = value$,` per entry. -/
def render_dictionary (parameters : List (String × String)) : String :=
  String.join (parameters.map (fun kv =>
    "$" ++ kv.1 ++ " = " ++ kv.2 ++ "$," ++ "\n"))

/-- Embedding of `write_dictionary_to_file`: after the write loop the
file is reopened, `seek(-2, SEEK_END)`–`truncate` drops the final
`",\n"`, and a `"."` is appended; on a file shorter than two bytes the
seek raises `OSError`, embedded as `none`.  Returns the final file
content. -/
def write_dictionary_to_file (parameters : List (String × String)) :
    Option String :=
  let rendered := render_dictionary parameters
  if rendered.length < 2 then none
  else some (rendered.dropRight 2 ++ ".")

/-- Embedding of `main` of `translate_metadata.py` over the explicit
filesystem: when the input file is missing, print the not-found message
and return early (the filesystem is untouched); otherwise print the
input-file message, run `parse_metadata`, `translate_dictionary` and
`write_dictionary_to_file`, and store the produced text under the output
file name.  An uncaught exception in the pipeline is `Except.error`; the
normal result carries the final filesystem and the printed messages. -/
def translate_metadata_main
    (jsonLoads : String → Option (List (String × List (String × String))))
    (fs : FileSystem) (inputfile outputfile filterKey : String) :
    Except String (FileSystem × List String) :=
  match fs.files inputfile with
  | none => Except.ok (fs, ["Input file not found: " ++ inputfile])
  | some content =>
      match parse_metadata jsonLoads content filterKey with
      | none => Except.error "uncaught exception in parse_metadata"
      | some metadata =>
          let translated := translate_dictionary metadata
          match write_dictionary_to_file translated with
          | none => Except.error "uncaught OSError in write_dictionary_to_file"
          | some outContent =>
              Except.ok
                (⟨fun name =>
                    if name = outputfile then some outContent
                    else fs.files name⟩,
                  ["Input file: " ++ inputfile])

/-- A demonstration row (all observations zero) used to instantiate the
universally quantified theorems below at a concrete input. -/
def demo_row : GrowthRow := ⟨0, 0, 0, 0, 0, 0, 0, 0, 0, 0, 0, 0⟩

/-- A filesystem holding no file at all, used to instantiate the
universally quantified theorems below at a concrete input. -/
def empty_fs : FileSystem := ⟨fun _ => none⟩

/-- Unfolds the count of `combine_groups` (shared helper). -/
theorem combine_groups_n_eq (group1 group2 : Group) :
    (combine_groups group1 group2).n = group1.n + group2.n := rfl

/-- Unfolds the mean of `combine_groups` (shared helper). -/
theorem combine_groups_mean_eq (group1 group2 : Group) :
    (combine_groups group1 group2).mean =
      ((group1.n : ℝ) * group1.mean + (group2.n : ℝ) * group2.mean) /
        ((group1.n : ℝ) + (group2.n : ℝ)) := rfl

/-- Unfolds the standard deviation of `combine_groups` (shared helper). -/
theorem combine_groups_std_eq (group1 group2 : Group) :
    (combine_groups group1 group2).std =
      Real.sqrt
        ((((group1.n : ℝ) - 1) * group1.std ^ 2
            + ((group2.n : ℝ) - 1) * group2.std ^ 2
            + ((group1.n : ℝ) * (group2.n : ℝ))
              * (group1.mean ^ 2 + group2.mean ^ 2
                  - 2 * group1.mean * group2.mean)
              / ((group1.n : ℝ) + (group2.n : ℝ)))
          / ((group1.n : ℝ) + (group2.n : ℝ) - 1)) := rfl

/-- C3: for every two groups with a nonzero combined count, the mean of
`combine_groups g1 g2` is the count-weighted average
`(n1*m1 + n2*m2) / (n1 + n2)`. -/
theorem combine_groups_mean_weighted (g1 g2 : Group) (h : g1.n + g2.n ≠ 0) :
    (combine_groups g1 g2).mean =
      ((g1.n : ℝ) * g1.mean + (g2.n : ℝ) * g2.mean) /
        ((g1.n : ℝ) + (g2.n : ℝ)) := rfl

/-- Witness for C3 at the concrete groups (7, 1, 1) and (8, 2, 1). -/
theorem combine_groups_mean_weighted_witness :
    (Group.mk 7 1 1).n + (Group.mk 8 2 1).n ≠ 0 ∧
    (combine_groups (Group.mk 7 1 1) (Group.mk 8 2 1)).mean =
      (((Group.mk 7 1 1).n : ℝ) * (Group.mk 7 1 1).mean
          + ((Group.mk 8 2 1).n : ℝ) * (Group.mk 8 2 1).mean) /
        (((Group.mk 7 1 1).n : ℝ) + ((Group.mk 8 2 1).n : ℝ)) :=
  ⟨by decide, combine_groups_mean_weighted _ _ (by decide)⟩

/-- C4: the count of `combine_groups g1 g2` is the summed count
`g1.n + g2.n`, for every two groups. -/
theorem combine_groups_count (g1 g2 : Group) :
    (combine_groups g1 g2).n = g1.n + g2.n := rfl

/-- C7: `combine_groups` is not idempotent: for every group with a
positive count, combining the group with itself yields a group different
from it, because the returned count `2*n` differs from `n`. -/
theorem combine_groups_not_idempotent (g : Group) (h : 1 ≤ g.n) :
    combine_groups g g ≠ g := by
  intro he
  have hn : g.n + g.n = g.n := congrArg Group.n he
  omega

/-- Witness for C7 at the concrete group (7, 0, 1). -/
theorem combine_groups_not_idempotent_witness :
    1 ≤ (Group.mk 7 0 1).n ∧
    combine_groups (Group.mk 7 0 1) (Group.mk 7 0 1) ≠ Group.mk 7 0 1 :=
  ⟨by decide, combine_groups_not_idempotent _ (by decide)⟩

/-- C9: for every threshold strictly below one and all parameters `c`
and `dt`, the linear ramp `l` is exactly zero at and below the
threshold: the clamped slope is zero there and `1 - exp 0 = 0`. -/
theorem l_eq_zero_below_threshold (x c xxx dt : ℝ) (hx : xxx < 1)
    (hle : x ≤ xxx) : l x c xxx dt = 0 := by
  have h1 : (x - xxx) / (1 - xxx) ≤ 0 :=
    div_nonpos_of_nonpos_of_nonneg (by linarith) (by linarith)
  show 1 - Real.exp (-c * max ((x - xxx) / (1 - xxx)) 0 * dt) = 0
  rw [max_eq_right h1]
  simp

/-- Witness for C9 at `x = 0.2`, `c = 3`, `xbar = 0.5`, `dt = 0.1`. -/
theorem l_eq_zero_below_threshold_witness :
    (0.5 : ℝ) < 1 ∧ (0.2 : ℝ) ≤ 0.5 ∧ l 0.2 3 0.5 0.1 = 0 :=
  ⟨by norm_num, by norm_num,
    l_eq_zero_below_threshold 0.2 3 0.5 0.1 (by norm_num) (by norm_num)⟩

/-- C1 (amended): for every two groups whose counts are both at least
one, the square of the standard deviation of `combine_groups g1 g2` is
the pooled variance
`((n1-1)*s1² + (n2-1)*s2² + n1*n2*(m1-m2)²/(n1+n2)) / (n1+n2-1)`. -/
theorem combine_groups_pooled_variance (g1 g2 : Group)
    (h1 : 1 ≤ g1.n) (h2 : 1 ≤ g2.n) :
    (combine_groups g1 g2).std ^ 2 =
      (((g1.n : ℝ) - 1) * g1.std ^ 2 + ((g2.n : ℝ) - 1) * g2.std ^ 2
          + (g1.n : ℝ) * (g2.n : ℝ) * (g1.mean - g2.mean) ^ 2
            / ((g1.n : ℝ) + (g2.n : ℝ)))
        / ((g1.n : ℝ) + (g2.n : ℝ) - 1) := by
  have h1' : (1 : ℝ) ≤ (g1.n : ℝ) := by exact_mod_cast h1
  have h2' : (1 : ℝ) ≤ (g2.n : ℝ) := by exact_mod_cast h2
  have hm : g1.mean ^ 2 + g2.mean ^ 2 - 2 * g1.mean * g2.mean =
      (g1.mean - g2.mean) ^ 2 := by ring
  have harg : 0 ≤
      (((g1.n : ℝ) - 1) * g1.std ^ 2 + ((g2.n : ℝ) - 1) * g2.std ^ 2
          + ((g1.n : ℝ) * (g2.n : ℝ))
            * (g1.mean ^ 2 + g2.mean ^ 2 - 2 * g1.mean * g2.mean)
            / ((g1.n : ℝ) + (g2.n : ℝ)))
        / ((g1.n : ℝ) + (g2.n : ℝ) - 1) := by
    rw [hm]
    apply div_nonneg
    · have t1 : 0 ≤ ((g1.n : ℝ) - 1) * g1.std ^ 2 :=
        mul_nonneg (by linarith) (sq_nonneg _)
      have t2 : 0 ≤ ((g2.n : ℝ) - 1) * g2.std ^ 2 :=
        mul_nonneg (by linarith) (sq_nonneg _)
      have t3 : 0 ≤ ((g1.n : ℝ) * (g2.n : ℝ)) * (g1.mean - g2.mean) ^ 2
          / ((g1.n : ℝ) + (g2.n : ℝ)) :=
        div_nonneg
          (mul_nonneg (mul_nonneg (Nat.cast_nonneg _) (Nat.cast_nonneg _))
            (sq_nonneg _))
          (by linarith)
      linarith
    · linarith
  rw [combine_groups_std_eq, Real.sq_sqrt harg, hm]

/-- Counterexample for C1 as stated: with the degenerate first group
(n = 0, std = 1) and second group (n = 2, std = 0), the combined count
exceeds one, yet `np.sqrt` receives the negative pooled-variance value
-1 (a NaN in Python, zero in the real model), so the squared standard
deviation is not the claimed formula value. -/
theorem combine_groups_pooled_variance_cex :
    1 < (Group.mk 0 0 1).n + (Group.mk 2 0 0).n ∧
    (combine_groups (Group.mk 0 0 1) (Group.mk 2 0 0)).std ^ 2 ≠
      ((((Group.mk 0 0 1).n : ℝ) - 1) * (Group.mk 0 0 1).std ^ 2
          + (((Group.mk 2 0 0).n : ℝ) - 1) * (Group.mk 2 0 0).std ^ 2
          + ((Group.mk 0 0 1).n : ℝ) * ((Group.mk 2 0 0).n : ℝ)
            * ((Group.mk 0 0 1).mean - (Group.mk 2 0 0).mean) ^ 2
            / (((Group.mk 0 0 1).n : ℝ) + ((Group.mk 2 0 0).n : ℝ)))
        / (((Group.mk 0 0 1).n : ℝ) + ((Group.mk 2 0 0).n : ℝ) - 1) := by
  refine ⟨by decide, ?_⟩
  have hstd : (combine_groups (Group.mk 0 0 1) (Group.mk 2 0 0)).std =
      Real.sqrt (-1) := by
    rw [combine_groups_std_eq]
    norm_num
  rw [hstd, Real.sqrt_eq_zero_of_nonpos (by norm_num)]
  norm_num

/-- Witness for the amended C1 at the concrete groups (7, 0, 1) and
(8, 3, 2). -/
theorem combine_groups_pooled_variance_witness :
    1 ≤ (Group.mk 7 0 1).n ∧ 1 ≤ (Group.mk 8 3 2).n ∧
    (combine_groups (Group.mk 7 0 1) (Group.mk 8 3 2)).std ^ 2 =
      ((((Group.mk 7 0 1).n : ℝ) - 1) * (Group.mk 7 0 1).std ^ 2
          + (((Group.mk 8 3 2).n : ℝ) - 1) * (Group.mk 8 3 2).std ^ 2
          + ((Group.mk 7 0 1).n : ℝ) * ((Group.mk 8 3 2).n : ℝ)
            * ((Group.mk 7 0 1).mean - (Group.mk 8 3 2).mean) ^ 2
            / (((Group.mk 7 0 1).n : ℝ) + ((Group.mk 8 3 2).n : ℝ)))
        / (((Group.mk 7 0 1).n : ℝ) + ((Group.mk 8 3 2).n : ℝ) - 1) :=
  ⟨by decide, by decide,
    combine_groups_pooled_variance _ _ (by decide) (by decide)⟩

/-- C6 (amended): for every group with count at least one, combining
the group with an identical copy of itself preserves the mean; and when
additionally the count is at least two and the standard deviation is
nonnegative, the combined standard deviation is
`std * sqrt(2*(n-1)/(2*n-1))`. -/
theorem combine_groups_self (g : Group) (h1 : 1 ≤ g.n) :
    (combine_groups g g).mean = g.mean ∧
    (2 ≤ g.n → 0 ≤ g.std →
      (combine_groups g g).std =
        g.std * Real.sqrt (2 * ((g.n : ℝ) - 1) / (2 * (g.n : ℝ) - 1))) := by
  have h1' : (1 : ℝ) ≤ (g.n : ℝ) := by exact_mod_cast h1
  constructor
  · rw [combine_groups_mean_eq, div_eq_iff (by linarith)]
    ring
  · intro h2 hs
    have h2' : (2 : ℝ) ≤ (g.n : ℝ) := by exact_mod_cast h2
    have ha : ((g.n : ℝ) + (g.n : ℝ)) ≠ 0 := by linarith
    have hb : ((g.n : ℝ) + (g.n : ℝ) - 1) ≠ 0 := by linarith
    have hc : (2 * (g.n : ℝ) - 1) ≠ 0 := by linarith
    have harg :
        (((g.n : ℝ) - 1) * g.std ^ 2 + ((g.n : ℝ) - 1) * g.std ^ 2
            + ((g.n : ℝ) * (g.n : ℝ))
              * (g.mean ^ 2 + g.mean ^ 2 - 2 * g.mean * g.mean)
              / ((g.n : ℝ) + (g.n : ℝ)))
          / ((g.n : ℝ) + (g.n : ℝ) - 1) =
        g.std ^ 2 * (2 * ((g.n : ℝ) - 1) / (2 * (g.n : ℝ) - 1)) := by
      field_simp
      ring
    rw [combine_groups_std_eq, harg, Real.sqrt_mul (sq_nonneg _),
      Real.sqrt_sq hs]

/-- Counterexample for C6 as stated: at the degenerate group
(n = 0, mean = 1, std = 0) the count-weighted average divides by zero
(a ZeroDivisionError in Python, zero in the real model), so combining
the group with an identical copy does not return the same mean. -/
theorem combine_groups_self_cex :
    (combine_groups (Group.mk 0 1 0) (Group.mk 0 1 0)).mean ≠
      (Group.mk 0 1 0).mean := by
  rw [combine_groups_mean_eq]
  norm_num

/-- Witness for the amended C6 at the concrete group (7, 1, 2). -/
theorem combine_groups_self_witness :
    1 ≤ (Group.mk 7 1 2).n ∧ 2 ≤ (Group.mk 7 1 2).n ∧
    (0 : ℝ) ≤ (Group.mk 7 1 2).std ∧
    (combine_groups (Group.mk 7 1 2) (Group.mk 7 1 2)).mean =
      (Group.mk 7 1 2).mean ∧
    (combine_groups (Group.mk 7 1 2) (Group.mk 7 1 2)).std =
      (Group.mk 7 1 2).std *
        Real.sqrt (2 * (((Group.mk 7 1 2).n : ℝ) - 1) /
          (2 * ((Group.mk 7 1 2).n : ℝ) - 1)) :=
  ⟨by decide, by decide, by norm_num,
    (combine_groups_self _ (by decide)).1,
    (combine_groups_self _ (by decide)).2 (by decide) (by norm_num)⟩

/-- Shared helper for C10: every pair emitted by `process_rows` carries
a `days` index of at most 34. -/
theorem process_rows_days_le (rows : List (ℤ × GrowthRow)) :
    ∀ p ∈ process_rows rows, p.1 ≤ 34 := by
  induction rows with
  | nil => intro p hp; simp [process_rows] at hp
  | cons head rest ih =>
      obtain ⟨i, row⟩ := head
      intro p hp
      by_cases h : 34 < i
      · simp [process_rows, h] at hp
      · rw [process_rows, if_neg h] at hp
        rcases List.mem_cons.mp hp with hp | hp
        · rw [hp]; omega
        · exact ih p hp

/-- Shared helper for C10: once a row with `days > 34` is reached, the
loop `break`s, so only the rows before it are combined. -/
theorem process_rows_stops (l1 : List (ℤ × GrowthRow)) (i : ℤ)
    (r : GrowthRow) (l2 : List (ℤ × GrowthRow))
    (h1 : ∀ q ∈ l1, q.1 ≤ 34) (h2 : 34 < i) :
    process_rows (l1 ++ (i, r) :: l2) =
      l1.map (fun q => (q.1, combine_row q.2)) := by
  induction l1 with
  | nil => simp [process_rows, h2]
  | cons head rest ih =>
      obtain ⟨j, row⟩ := head
      have hj : j ≤ 34 := h1 (j, row) (by simp)
      have hj' : ¬ 34 < j := by omega
      simp only [List.cons_append, process_rows, if_neg hj', List.map_cons]
      exact congrArg _ (ih (fun q hq => h1 q (List.mem_cons_of_mem _ hq)))

/-- C10: the row loop of `combine_data.py` emits only rows whose `days`
index is at most 34, and on a row list whose first over-34 row is at the
marked position, the output is exactly the combination of the rows
before it — the treatment period is excluded. -/
theorem process_rows_treatment_cutoff (rows l1 l2 : List (ℤ × GrowthRow))
    (i : ℤ) (r : GrowthRow)
    (h1 : ∀ q ∈ l1, q.1 ≤ 34) (h2 : 34 < i) :
    (∀ p ∈ process_rows rows, p.1 ≤ 34) ∧
    process_rows (l1 ++ (i, r) :: l2) =
      l1.map (fun q => (q.1, combine_row q.2)) :=
  ⟨process_rows_days_le rows, process_rows_stops l1 i r l2 h1 h2⟩

/-- Witness for C10: a three-row input whose middle row carries the
`days` index 35. -/
theorem process_rows_treatment_cutoff_witness :
    (∀ q ∈ [((10 : ℤ), demo_row)], q.1 ≤ 34) ∧ (34 : ℤ) < 35 ∧
    ((∀ p ∈ process_rows [((40 : ℤ), demo_row)], p.1 ≤ 34) ∧
      process_rows ([((10 : ℤ), demo_row)] ++
          ((35 : ℤ), demo_row) :: [((40 : ℤ), demo_row)]) =
        [((10 : ℤ), demo_row)].map (fun q => (q.1, combine_row q.2))) :=
  ⟨fun q hq => by rw [List.mem_singleton.mp hq]; norm_num, by norm_num,
    process_rows_treatment_cutoff [((40 : ℤ), demo_row)]
      [((10 : ℤ), demo_row)] [((40 : ℤ), demo_row)] 35 demo_row
      (fun q hq => by rw [List.mem_singleton.mp hq]; norm_num) (by norm_num)⟩

/-- Shared helper for C2: the element selected by `pymax` splits the
scanned list into a strict-smaller prefix and a no-larger suffix — the
characterisation of CPython's first-maximum `max`. -/
theorem pymax_spec {α : Type} (xs : List (α × ℚ)) (x : α × ℚ) :
    ∃ l1 l2, x :: xs = l1 ++ pymax x xs :: l2 ∧
      (∀ z ∈ l1, z.2 < (pymax x xs).2) ∧
      (∀ z ∈ l2, z.2 ≤ (pymax x xs).2) := by
  induction xs generalizing x with
  | nil => exact ⟨[], [], rfl, by simp, by simp⟩
  | cons y ys ih =>
      by_cases h : x.2 < y.2
      · have hstep : pymax x (y :: ys) = pymax y ys := by
          simp only [pymax, List.foldl_cons, if_pos h]
        rw [hstep]
        obtain ⟨l1, l2, hdec, hlt, hle⟩ := ih y
        have hyr : y.2 ≤ (pymax y ys).2 := by
          cases l1 with
          | nil =>
              simp only [List.nil_append] at hdec
              injection hdec with e1 _
              exact le_of_eq (congrArg Prod.snd e1)
          | cons a t =>
              simp only [List.cons_append] at hdec
              injection hdec with e1 _
              exact le_of_lt (e1 ▸ hlt a (List.mem_cons_self a t))
        refine ⟨x :: l1, l2, congrArg (List.cons x) hdec, ?_, hle⟩
        intro z hz
        rcases List.mem_cons.mp hz with hz | hz
        · rw [hz]; exact lt_of_lt_of_le h hyr
        · exact hlt z hz
      · have h' : y.2 ≤ x.2 := le_of_not_lt h
        have hstep : pymax x (y :: ys) = pymax x ys := by
          simp only [pymax, List.foldl_cons, if_neg h]
        rw [hstep]
        obtain ⟨l1, l2, hdec, hlt, hle⟩ := ih x
        cases l1 with
        | nil =>
            simp only [List.nil_append] at hdec
            injection hdec with e1 e2
            refine ⟨[], y :: l2, ?_, by simp, ?_⟩
            · rw [List.nil_append, ← e1, ← e2]
            · intro z hz
              rcases List.mem_cons.mp hz with hz | hz
              · rw [hz]; exact h'.trans (le_of_eq (congrArg Prod.snd e1))
              · exact hle z hz
        | cons a t =>
            simp only [List.cons_append] at hdec
            injection hdec with e1 e2
            have hx2 : x.2 < (pymax x ys).2 := by
              have := hlt a (List.mem_cons_self a t)
              rwa [← e1] at this
            refine ⟨x :: y :: t, l2, ?_, ?_, hle⟩
            · simp only [List.cons_append]
              exact congrArg _ (congrArg _ e2)
            · intro z hz
              rcases List.mem_cons.mp hz with hz | hz
              · rw [hz]; exact hx2
              · rcases List.mem_cons.mp hz with hz2 | hz2
                · rw [hz2]; exact lt_of_le_of_lt h' hx2
                · exact hlt z (List.mem_cons_of_mem _ hz2)

/-- Shared helper for C2: specification of the selection core over an
arbitrary candidate list — the returned p-value belongs to the returned
name, dominates every candidate, and every candidate strictly earlier in
the list has a strictly smaller p-value. -/
theorem best_of_spec {P : Type} (names : List String) (fit : String → P)
    (kstest : String → P → ℚ × ℚ) (d : String) (p : ℚ) (par : P)
    (h : best_of names fit kstest = some (d, p, par)) :
    p = (kstest d (fit d)).2 ∧
    (∀ s ∈ names, (kstest s (fit s)).2 ≤ p) ∧
    ∃ m1 m2, names = m1 ++ d :: m2 ∧
      ∀ s ∈ m1, (kstest s (fit s)).2 < p := by
  cases names with
  | nil => simp [best_of, fit_results] at h
  | cons n ns =>
      have hred : best_of (n :: ns) fit kstest =
          some ((pymax (n, (kstest n (fit n)).2)
              (ns.map fun s => (s, (kstest s (fit s)).2))).1,
            (pymax (n, (kstest n (fit n)).2)
              (ns.map fun s => (s, (kstest s (fit s)).2))).2,
            fit (pymax (n, (kstest n (fit n)).2)
              (ns.map fun s => (s, (kstest s (fit s)).2))).1) := rfl
      rw [hred] at h
      have h' := Option.some.inj h
      obtain ⟨l1, l2, hdec, hlt, hle⟩ :=
        pymax_spec (ns.map fun s => (s, (kstest s (fit s)).2))
          (n, (kstest n (fit n)).2)
      set r := pymax (n, (kstest n (fit n)).2)
        (ns.map fun s => (s, (kstest s (fit s)).2)) with hrdef
      have h1 : r.1 = d := congrArg Prod.fst h'
      have h23 := congrArg Prod.snd h'
      have h2 : r.2 = p := congrArg Prod.fst h23
      have hmap : (n :: ns).map (fun s => (s, (kstest s (fit s)).2)) =
          l1 ++ r :: l2 := hdec
      have hform : ∀ z ∈ l1 ++ r :: l2,
          z = (z.1, (kstest z.1 (fit z.1)).2) := by
        intro z hz
        rw [← hmap] at hz
        obtain ⟨w, _, hwz⟩ := List.mem_map.mp hz
        rw [← hwz]
      have hrform : r = (r.1, (kstest r.1 (fit r.1)).2) :=
        hform r (by simp)
      have hr2 : r.2 = (kstest r.1 (fit r.1)).2 := congrArg Prod.snd hrform
      refine ⟨?_, ?_, ?_⟩
      · rw [← h2, ← h1]; exact hr2
      · intro s hs
        have hmem : (s, (kstest s (fit s)).2) ∈ l1 ++ r :: l2 := by
          rw [← hmap]
          exact List.mem_map_of_mem _ hs
        rcases List.mem_append.mp hmem with hin | hin
        · exact le_of_lt (h2 ▸ hlt _ hin)
        · rcases List.mem_cons.mp hin with heq | hin2
          · exact le_of_eq (h2 ▸ congrArg Prod.snd heq)
          · exact h2 ▸ hle _ hin2
      · refine ⟨l1.map Prod.fst, l2.map Prod.fst, ?_, ?_⟩
        · have hc := congrArg (List.map Prod.fst) hmap
          rw [List.map_map] at hc
          have hid : (Prod.fst ∘ fun s : String =>
              (s, (kstest s (fit s)).2)) = id := rfl
          rw [hid, List.map_id] at hc
          rw [hc, List.map_append, List.map_cons, h1]
        · intro s hs
          obtain ⟨z, hz, hzs⟩ := List.mem_map.mp hs
          have hzform : z = (z.1, (kstest z.1 (fit z.1)).2) :=
            hform z (List.mem_append_left _ hz)
          have hlt' := hlt z hz
          rw [h2] at hlt'
          rw [← hzs]
          have hz2 : z.2 = (kstest z.1 (fit z.1)).2 :=
            congrArg Prod.snd hzform
          rw [← hz2]
          exact hlt'

/-- C2: when `get_best_distribution` returns `(d, p, par)`, `p` is the
Kolmogorov–Smirnov p-value of `d` itself, every candidate in
`dist_names` has a p-value at most `p`, and every candidate listed
before `d` in `dist_names` has a strictly smaller p-value — so the
first maximum in iteration order is returned. -/
theorem get_best_distribution_spec {P : Type} (fit : String → P)
    (kstest : String → P → ℚ × ℚ) (d : String) (p : ℚ) (par : P)
    (h : get_best_distribution fit kstest = some (d, p, par)) :
    p = (kstest d (fit d)).2 ∧
    (∀ s ∈ dist_names, (kstest s (fit s)).2 ≤ p) ∧
    ∃ m1 m2, dist_names = m1 ++ d :: m2 ∧
      ∀ s ∈ m1, (kstest s (fit s)).2 < p :=
  best_of_spec dist_names fit kstest d p par h

set_option maxRecDepth 20000 in
/-- Witness for C2 with constant fit parameters and constant zero
p-values: the first candidate `alpha` wins. -/
theorem get_best_distribution_spec_witness :
    get_best_distribution (fun _ => (0 : ℚ))
        (fun _ _ => ((0 : ℚ), (0 : ℚ))) = some ("alpha", 0, 0) ∧
    ∃ m1 m2, dist_names = m1 ++ "alpha" :: m2 ∧
      ∀ s ∈ m1, (0 : ℚ) < 0 := by
  have h : get_best_distribution (fun _ => (0 : ℚ))
      (fun _ _ => ((0 : ℚ), (0 : ℚ))) = some ("alpha", 0, 0) := rfl
  exact ⟨h, (get_best_distribution_spec _ _ _ _ _ h).2.2⟩

/-- Shared helper for C5: the parameter component returned by the
selection core is the fitted parameter tuple of the returned name. -/
theorem best_of_params {P : Type} (names : List String) (fit : String → P)
    (kstest : String → P → ℚ × ℚ) (d : String) (p : ℚ) (par : P)
    (h : best_of names fit kstest = some (d, p, par)) : par = fit d := by
  cases names with
  | nil => simp [best_of, fit_results] at h
  | cons n ns =>
      have hred : best_of (n :: ns) fit kstest =
          some ((pymax (n, (kstest n (fit n)).2)
              (ns.map fun s => (s, (kstest s (fit s)).2))).1,
            (pymax (n, (kstest n (fit n)).2)
              (ns.map fun s => (s, (kstest s (fit s)).2))).2,
            fit (pymax (n, (kstest n (fit n)).2)
              (ns.map fun s => (s, (kstest s (fit s)).2))).1) := rfl
      rw [hred] at h
      have h' := Option.some.inj h
      have h1 : (pymax (n, (kstest n (fit n)).2)
          (ns.map fun s => (s, (kstest s (fit s)).2))).1 = d :=
        congrArg Prod.fst h'
      have h3 : fit (pymax (n, (kstest n (fit n)).2)
          (ns.map fun s => (s, (kstest s (fit s)).2))).1 = par :=
        congrArg Prod.snd (congrArg Prod.snd h')
      rw [← h3, h1]

/-- C5: the third component returned by `get_best_distribution` is
exactly the maximum-likelihood parameter tuple fitted for the returned
best distribution name. -/
theorem get_best_distribution_params {P : Type} (fit : String → P)
    (kstest : String → P → ℚ × ℚ) (d : String) (p : ℚ) (par : P)
    (h : get_best_distribution fit kstest = some (d, p, par)) :
    par = fit d :=
  best_of_params dist_names fit kstest d p par h

set_option maxRecDepth 20000 in
/-- Witness for C5 with constant fit parameter 1: the returned
parameter is the fit of the winning name `alpha`. -/
theorem get_best_distribution_params_witness :
    get_best_distribution (fun _ => (1 : ℚ))
        (fun _ _ => ((0 : ℚ), (0 : ℚ))) = some ("alpha", 0, 1) ∧
    (1 : ℚ) = 1 := by
  have h : get_best_distribution (fun _ => (1 : ℚ))
      (fun _ _ => ((0 : ℚ), (0 : ℚ))) = some ("alpha", 0, 1) := rfl
  exact ⟨h, get_best_distribution_params _ _ _ _ _ h⟩

/-- C8: when the input file does not exist, `main` of
`translate_metadata.py` prints the not-found message and returns early:
the filesystem is returned unchanged (no output file is written) and
the metadata is never parsed (the result does not depend on the JSON
decoder at all). -/
theorem translate_metadata_main_missing_input
    (jsonLoads : String → Option (List (String × List (String × String))))
    (fs : FileSystem) (inputfile outputfile filterKey : String)
    (h : fs.files inputfile = none) :
    translate_metadata_main jsonLoads fs inputfile outputfile filterKey =
      Except.ok (fs, ["Input file not found: " ++ inputfile]) := by
  unfold translate_metadata_main
  rw [h]

/-- Witness for C8 on the empty filesystem with the default flag
values of the script. -/
theorem translate_metadata_main_missing_input_witness :
    empty_fs.files "metadata" = none ∧
    translate_metadata_main (fun _ => none) empty_fs "metadata"
        "metadata.tex" "bdm::SimParam" =
      Except.ok (empty_fs, ["Input file not found: " ++ "metadata"]) :=
  ⟨rfl, translate_metadata_main_missing_input _ _ _ _ _ rfl⟩

end Angio
